import Mathlib

/-!
Shallow embedding of the schema-to-type resolution core (the `getObject`
object resolver and the predicate utilities it uses), together with proofs
of the behavioural properties stated about it.

The object resolver itself (`getObject`) and the discriminator utilities
(`isReference`, `isBoolean`) are transcribed from the sources.  The
collaborators `getObject` merely calls into (`combineSchemas`,
`resolveObject`, `resolveValue`, `getRefInfo`, `pascal`, `jsDoc`, `getKey`)
and the `asyncReduce` sequencing utility are not part of the analysed
sources; they are modelled from the specification, the former as an
abstract record of functions with the documented signatures, the latter as
the strictly sequential indexed fold the specification describes.
-/

/-- The raw `required` field of a schema node as found in the input
document: absent, a JSON array of property names, or any other (malformed)
JSON value.  The source probes it with an array check, so only the three
shapes matter. -/
inductive ReqField where
  | missing
  | arr (names : List String)
  | malformed
  deriving DecidableEq, Repr

/-- A schema node (`SchemaObject`/`ReferenceObject` of the input format),
restricted to the fields the object resolver reads: the reference pointer,
the three composition keyword lists, the insertion-ordered properties map,
the `required` field, `additionalProperties` (a boolean or a schema),
`readOnly`, and the declared `type`.  An absent field is `none`
(`readOnly` absent is the falsy `false`). -/
inductive SchemaObject where
  | mk
      (ref : Option String)
      (allOf : Option (List SchemaObject))
      (oneOf : Option (List SchemaObject))
      (anyOf : Option (List SchemaObject))
      (properties : Option (List (String × SchemaObject)))
      (required : ReqField)
      (additionalProperties : Option (Bool ⊕ SchemaObject))
      (readOnly : Bool)
      (type : Option String)

def SchemaObject.ref : SchemaObject → Option String
  | .mk r _ _ _ _ _ _ _ _ => r

def SchemaObject.allOf : SchemaObject → Option (List SchemaObject)
  | .mk _ al _ _ _ _ _ _ _ => al

def SchemaObject.oneOf : SchemaObject → Option (List SchemaObject)
  | .mk _ _ ol _ _ _ _ _ _ => ol

def SchemaObject.anyOf : SchemaObject → Option (List SchemaObject)
  | .mk _ _ _ al _ _ _ _ _ => al

def SchemaObject.properties : SchemaObject → Option (List (String × SchemaObject))
  | .mk _ _ _ _ pr _ _ _ _ => pr

def SchemaObject.required : SchemaObject → ReqField
  | .mk _ _ _ _ _ rq _ _ _ => rq

def SchemaObject.additionalProperties : SchemaObject → Option (Bool ⊕ SchemaObject)
  | .mk _ _ _ _ _ _ ap _ _ => ap

def SchemaObject.readOnly : SchemaObject → Bool
  | .mk _ _ _ _ _ _ _ ro _ => ro

def SchemaObject.type : SchemaObject → Option String
  | .mk _ _ _ _ _ _ _ _ ty => ty

/-- The empty schema node: every optional field absent. -/
def emptySchemaObject : SchemaObject :=
  .mk none none none none none ReqField.missing none false none

/-- The lodash `omit(item, 'allOf')` call: a copy of the node with the
`allOf` keyword removed and every other field kept. -/
def omitAllOf : SchemaObject → SchemaObject
  | .mk r _ ol al pr rq ap ro ty => .mk r none ol al pr rq ap ro ty

/-- The lodash `omit(item, 'oneOf')` call. -/
def omitOneOf : SchemaObject → SchemaObject
  | .mk r al _ ay pr rq ap ro ty => .mk r al none ay pr rq ap ro ty

/-- The lodash `omit(item, 'anyOf')` call. -/
def omitAnyOf : SchemaObject → SchemaObject
  | .mk r al ol _ pr rq ap ro ty => .mk r al ol none pr rq ap ro ty

/-- An import dependency entry: the synthesized name and the key of the
document it lives in. -/
structure ImportEntry where
  name : String
  specKey : String
  deriving DecidableEq, Repr

/-- Modelled from the spec: a named sub-schema that must be emitted as a
separate top-level declaration.  The object resolver only concatenates
these lists, never inspects the entries. -/
structure GeneratorSchema where
  name : String
  model : String
  deriving DecidableEq, Repr

/-- The uniform result record of one resolution step (`ResolverValue`). -/
structure ResolverValue where
  value : String
  imports : List ImportEntry
  schemas : List GeneratorSchema
  isEnum : Bool
  type : String
  isRef : Bool
  schema : Option SchemaObject := none

/-- The separator passed to the composition combiner. -/
inductive Separator where
  | allOf
  | oneOf
  | anyOf
  deriving DecidableEq, Repr

/-- The resolution context: the registry of loaded documents (here, each
document reduced to the list of its truthy top-level schema names, which
is all the object resolver reads from it) and the key of the target
document. -/
structure ContextSpecs where
  specs : List (String × List String)
  target : String

/-- The names under `components.schemas` of the target document, the
lookup behind `context.specs[context.target]?.components?.schemas?.[k]`;
a missing target document yields the empty list (optional chaining). -/
def targetSchemaNames (context : ContextSpecs) : List String :=
  (List.lookup context.target context.specs).getD []

/-- Modelled from the spec: the collaborators imported by the object
resolver (the composition combiner, the member resolvers, the reference
resolver, and the pure string primitives pascal / jsDoc / getKey) are not
part of the analysed sources, so they are kept abstract as a record of
functions with the signatures the call sites exhibit. -/
structure Resolvers where
  combineSchemas : List SchemaObject → Option String → Separator → ContextSpecs → ResolverValue
  resolveObject : SchemaObject → Option String → ContextSpecs → ResolverValue
  resolveValue : SchemaObject → Option String → ContextSpecs → ResolverValue
  getRefInfo : String → ContextSpecs → String × String
  pascal : String → String
  jsDoc : SchemaObject → Bool → String
  getKey : String → String

/-- Transcribed from the utils source: `Boolean(property.$ref)` — absent
and the empty string are falsy, any other string is truthy. -/
def isReference (item : SchemaObject) : Bool :=
  match item.ref with
  | some s => !s.isEmpty
  | none => false

/-- JS coercion of a possibly-undefined string by the string `+` operator:
`undefined` prints as the text undefined. -/
def jsStr : Option String → String
  | some s => s
  | none => "undefined"

/-- The requiredness test of the source:
`(Array.isArray(item.required) ? item.required : []).includes(key)`. -/
def requiredOf (item : SchemaObject) (key : String) : Bool :=
  (match item.required with
   | ReqField.arr names => names
   | _ => ([] : List String)).contains key

/-- The nested-name computation of the source (lines 86 to 95): the
candidate `pascal(name) + pascal(key)` when a parent name is supplied,
suffixed with the literal Property when the candidate (or, with no parent
name, the empty-string lookup key `propName || ''`) is already a
top-level schema of the target document; the suffixing concatenation is
the JS `+`, so an undefined candidate yields the text undefinedProperty. -/
def nestedPropName (pascal : String → String) (name : Option String) (key : String)
    (context : ContextSpecs) : Option String :=
  let propName := name.map (fun n => pascal n ++ pascal key)
  if (targetSchemaNames context).contains (propName.getD ("")) then
    some (jsStr propName ++ "Property")
  else
    propName

/-- Modelled from the spec: the Ordered Async Fold (`asyncReduce`) applies
the step function strictly in list order, threading the accumulator and
passing the running index and the full list, exactly as the specification
describes for the sequencing utility (asynchrony only reorders internal
work, never the committed effects, so the pure model is the sequential
indexed fold).  This is the recursion worker. -/
def asyncReduceGo (f : β → α → Nat → List α → β) (arr : List α) :
    List α → Nat → β → β
  | [], _, acc => acc
  | x :: rest, index, acc => asyncReduceGo f arr rest (index + 1) (f acc x index arr)

/-- Modelled from the spec: the Ordered Async Fold entry point. -/
def asyncReduce (items : List α) (f : β → α → Nat → List α → β) (init : β) : β :=
  asyncReduceGo f items items 0 init

/-- One emitted member line, the template literal of the source:
newline-indent, the doc comment when non-empty, the readonly marker when
flagged, the encoded key, the optional marker when not required, and the
resolved member type. -/
def memberCore (doc : String) (isReadOnly : Bool) (keyText : String) (isRequired : Bool)
    (valueText : String) : String :=
  "\n  " ++ (if doc.isEmpty then ("") else doc ++ "  ") ++
    (if isReadOnly then ("readonly ") else ("")) ++ keyText ++
    (if isRequired then ("") else ("?")) ++ ": " ++ valueText ++ ";"

/-- The member declaration emitted for one property `(key, schema)` of the
owning object `item`: `memberCore` applied to the values the source
computes for that property. -/
def memberDecl (R : Resolvers) (item : SchemaObject) (name : Option String)
    (context : ContextSpecs) (p : String × SchemaObject) : String :=
  memberCore (R.jsDoc p.2 true) (item.readOnly || p.2.readOnly) (R.getKey p.1)
    (requiredOf item p.1)
    ((R.resolveObject p.2 (nestedPropName R.pascal name p.1 context) context).value)

/-- The member declaration with the requiredness decision made explicit. -/
def memberWithReq (R : Resolvers) (item : SchemaObject) (name : Option String)
    (context : ContextSpecs) (p : String × SchemaObject) (isRequired : Bool) : String :=
  memberCore (R.jsDoc p.2 true) (item.readOnly || p.2.readOnly) (R.getKey p.1)
    isRequired
    ((R.resolveObject p.2 (nestedPropName R.pascal name p.1 context) context).value)

/-- The member declaration with the readonly decision made explicit. -/
def memberWithRO (R : Resolvers) (item : SchemaObject) (name : Option String)
    (context : ContextSpecs) (p : String × SchemaObject) (isReadOnly : Bool) : String :=
  memberCore (R.jsDoc p.2 true) isReadOnly (R.getKey p.1)
    (requiredOf item p.1)
    ((R.resolveObject p.2 (nestedPropName R.pascal name p.1 context) context).value)

/-- One step of the property fold (the callback of lines 77 to 121 of the
object resolver source): the first step prepends the opening brace, every
step appends its member declaration and concatenates the member's imports
and schemas, and the last step appends the closing brace. -/
def objStep (R : Resolvers) (item : SchemaObject) (name : Option String)
    (context : ContextSpecs) (acc : ResolverValue) (p : String × SchemaObject)
    (index : Nat) (arr : List (String × SchemaObject)) : ResolverValue :=
  let isRequired := requiredOf item p.1
  let propName := nestedPropName R.pascal name p.1 context
  let resolvedValue := R.resolveObject p.2 propName context
  let isReadOnly := item.readOnly || p.2.readOnly
  let value0 := if index == 0 then acc.value ++ "\x7b" else acc.value
  let doc := R.jsDoc p.2 true
  let imports1 := acc.imports ++ resolvedValue.imports
  let value1 := value0 ++ memberCore doc isReadOnly (R.getKey p.1) isRequired resolvedValue.value
  let schemas1 := acc.schemas ++ resolvedValue.schemas
  let value2 := if arr.length - 1 == index then value1 ++ "\n\x7d" else value1
  { acc with value := value2, imports := imports1, schemas := schemas1 }

/-- The fallback result (lines 160 to 167): an empty record for a declared
object type, the unknown placeholder otherwise, with no imports and no
sub-schemas. -/
def fallbackValue (item : SchemaObject) : ResolverValue :=
  { value := if item.type == some ("object") then "\x7b\x7d" else "unknown",
    imports := [], schemas := [], isEnum := false, type := "object", isRef := false }

/-- The `additionalProperties` branch and the fallback (lines 134 to 167).
The guard is JS truthiness of `additionalProperties`, so the boolean false
falls through to the final fallback; the boolean true passes the
`isBoolean` test and yields the open index record; a schema value is
resolved by the value resolver. -/
def getObjectTail (R : Resolvers) (item : SchemaObject) (name : Option String)
    (context : ContextSpecs) : ResolverValue :=
  match item.additionalProperties with
  | some (Sum.inl b) =>
      if b then
        { value := "\x7b [key: string]: any \x7d", imports := [], schemas := [],
          isEnum := false, type := "object", isRef := false }
      else fallbackValue item
  | some (Sum.inr valueSchema) =>
      let resolvedValue := R.resolveValue valueSchema name context
      { value := "\x7b[key: string]: " ++ resolvedValue.value ++ "\x7d",
        imports := resolvedValue.imports, schemas := resolvedValue.schemas,
        isEnum := false, type := "object", isRef := false }
  | none => fallbackValue item

/-- The object resolver, transcribed from the source: reference
short-circuit, then the three composition keywords in order, then the
non-empty properties fold, then `additionalProperties`, then the
fallback. -/
def getObject (R : Resolvers) (item : SchemaObject) (name : Option String)
    (context : ContextSpecs) : ResolverValue :=
  if isReference item then
    let info := R.getRefInfo (item.ref.getD ("")) context
    { value := info.1, imports := [{ name := info.1, specKey := info.2 }], schemas := [],
      isEnum := false, type := "object", isRef := true }
  else
    match item.allOf with
    | some allOfItems =>
        R.combineSchemas
          (if item.properties.isSome then allOfItems ++ [omitAllOf item] else allOfItems)
          name Separator.allOf context
    | none =>
      match item.oneOf with
      | some oneOfItems =>
          R.combineSchemas
            (if item.properties.isSome then oneOfItems ++ [omitOneOf item] else oneOfItems)
            name Separator.oneOf context
      | none =>
        match item.anyOf with
        | some anyOfItems =>
            R.combineSchemas
              (if item.properties.isSome then anyOfItems ++ [omitAnyOf item] else anyOfItems)
              name Separator.anyOf context
        | none =>
          match item.properties with
          | some props =>
              if 0 < props.length then
                asyncReduce props (objStep R item name context)
                  { imports := [], schemas := [], value := "", isEnum := false,
                    type := "object", isRef := false, schema := some emptySchemaObject }
              else getObjectTail R item name context
          | none => getObjectTail R item name context

/-- Concatenation of a list of strings in order. -/
def concatAll : List String → String
  | [] => ""
  | s :: rest => s ++ concatAll rest

/-! Concrete instances used by witnesses and counterexamples.  The
resolver record is chosen so that the hint a member resolution receives is
visible in the produced value text. -/

/-- A concrete resolver record for witnesses: the member resolver echoes
the name hint it receives, the other collaborators return fixed data. -/
def demoResolvers : Resolvers where
  combineSchemas := fun _ _ _ _ =>
    { value := "combined", imports := [], schemas := [], isEnum := false,
      type := "object", isRef := false }
  resolveObject := fun _ hint _ =>
    { value := (match hint with | some s => "hint:" ++ s | none => "nohint"),
      imports := [], schemas := [], isEnum := false, type := "object", isRef := false }
  resolveValue := fun _ _ _ =>
    { value := "resolved", imports := [{ name := "V", specKey := "main" }],
      schemas := [{ name := "VS", model := "vs" }], isEnum := false,
      type := "object", isRef := false }
  getRefInfo := fun ref context => (ref ++ "Name", context.target)
  pascal := fun s => s
  jsDoc := fun _ _ => ""
  getKey := fun k => k

/-- A concrete context whose target document declares the top-level schema
PetStatus. -/
def demoContext : ContextSpecs := { specs := [("main", ["PetStatus"])], target := "main" }

/-- A context whose target document has a top-level schema under the
empty-string key. -/
def c4Context : ContextSpecs := { specs := [("main", [""])], target := "main" }

/-- A one-property object schema with no parent name relevance. -/
def c4Item : SchemaObject :=
  .mk none none none none (some [("a", emptySchemaObject)]) ReqField.missing none false none

/-- A two-property object schema requiring the first property. -/
def propsItem : SchemaObject :=
  .mk none none none none (some [("a", emptySchemaObject), ("b", emptySchemaObject)])
    (ReqField.arr ["a"]) none false none

/-- A node whose additionalProperties is the boolean false. -/
def c5Item : SchemaObject :=
  .mk none none none none none ReqField.missing (some (Sum.inl false)) false none

/-- A node whose additionalProperties is a schema. -/
def c5bItem : SchemaObject :=
  .mk none none none none none ReqField.missing (some (Sum.inr emptySchemaObject)) false none

/-- A reference node carrying stray sibling keys. -/
def refItem : SchemaObject :=
  .mk (some ("#/components/schemas/Pet")) none none none
    (some [("x", emptySchemaObject)]) ReqField.missing none false none

/-- A second reference node with the same pointer but different
siblings. -/
def refItemB : SchemaObject :=
  .mk (some ("#/components/schemas/Pet")) (some []) none none none
    (ReqField.arr ["x"]) none true (some ("object"))

/-- A node with an allOf composition and its own properties. -/
def c3Item : SchemaObject :=
  .mk none (some [emptySchemaObject]) none none
    (some [("a", emptySchemaObject)]) ReqField.missing none false none

/-- A node carrying both allOf and oneOf together with properties. -/
def c10Item : SchemaObject :=
  .mk none (some [emptySchemaObject]) (some [emptySchemaObject, emptySchemaObject]) none
    (some [("a", emptySchemaObject)]) ReqField.missing none false none

/-- An object-typed node with an empty properties map and nothing else. -/
def c6Item : SchemaObject :=
  .mk none none none none (some []) ReqField.missing none false (some ("object"))

/-- A one-property object schema whose owner declares readOnly. -/
def roItem : SchemaObject :=
  .mk none none none none (some [("a", emptySchemaObject)]) ReqField.missing none true none

/-! Structural lemmas about the property fold. -/

lemma asyncReduceGo_nil (f : β → α → Nat → List α → β) (arr : List α) (index : Nat) (acc : β) :
    asyncReduceGo f arr [] index acc = acc := rfl

lemma asyncReduceGo_cons (f : β → α → Nat → List α → β) (arr : List α) (x : α)
    (rest : List α) (index : Nat) (acc : β) :
    asyncReduceGo f arr (x :: rest) index acc =
      asyncReduceGo f arr rest (index + 1) (f acc x index arr) := rfl

lemma objStep_value (R : Resolvers) (item : SchemaObject) (name : Option String)
    (context : ContextSpecs) (acc : ResolverValue) (p : String × SchemaObject)
    (index : Nat) (arr : List (String × SchemaObject)) :
    (objStep R item name context acc p index arr).value =
      (if index == 0 then acc.value ++ "\x7b" else acc.value) ++
        memberDecl R item name context p ++
        (if arr.length - 1 == index then "\n\x7d" else ("")) := by
  cases h0 : (index == 0) <;> cases h1 : (arr.length - 1 == index) <;>
    simp [objStep, memberDecl, h0, h1]

lemma asyncReduceGo_value (R : Resolvers) (item : SchemaObject) (name : Option String)
    (context : ContextSpecs) (l : List (String × SchemaObject))
    (rest : List (String × SchemaObject)) :
    ∀ (index : Nat) (acc : ResolverValue),
      index + rest.length = l.length → 1 ≤ index →
      (asyncReduceGo (objStep R item name context) l rest index acc).value =
        acc.value ++ concatAll (rest.map (memberDecl R item name context)) ++
          (if rest.isEmpty then ("") else "\n\x7d") := by
  induction rest with
  | nil =>
    intro index acc _ _
    simp [asyncReduceGo_nil, concatAll]
  | cons p rest ih =>
    intro index acc hlen hpos
    simp only [List.length_cons] at hlen
    have h0 : (index == 0) = false := by
      have : index ≠ 0 := by omega
      simp [this]
    rw [asyncReduceGo_cons]
    cases rest with
    | nil =>
      have hlast : l.length - 1 = index := by simp at hlen; omega
      simp [asyncReduceGo_nil, objStep_value, h0, hlast, concatAll, String.append_assoc]
    | cons q rest2 =>
      have hnot : (l.length - 1 == index) = false := by
        have : l.length - 1 ≠ index := by simp at hlen; omega
        simp [this]
      have hlen2 : (index + 1) + (q :: rest2).length = l.length := by
        simp at hlen ⊢; omega
      rw [ih (index + 1) _ hlen2 (by omega)]
      rw [objStep_value]
      simp [h0, hnot, concatAll, String.append_assoc]

lemma getObject_props_value (R : Resolvers) (item : SchemaObject) (name : Option String)
    (context : ContextSpecs) (props : List (String × SchemaObject))
    (h1 : isReference item = false) (h2 : item.allOf = none) (h3 : item.oneOf = none)
    (h4 : item.anyOf = none) (h5 : item.properties = some props) (h6 : props ≠ []) :
    (getObject R item name context).value =
      "\x7b" ++ concatAll (props.map (memberDecl R item name context)) ++ "\n\x7d" := by
  obtain ⟨p, rest, rfl⟩ := List.exists_cons_of_ne_nil h6
  rw [getObject]
  simp only [h1, h2, h3, h4, h5, Bool.false_eq_true, if_false, List.length_cons,
    Nat.zero_lt_succ, if_true, asyncReduce]
  rw [asyncReduceGo_cons]
  cases rest with
  | nil =>
    simp [asyncReduceGo_nil, objStep_value, concatAll, String.append_assoc]
  | cons q rest2 =>
    rw [asyncReduceGo_value R item name context _ _ (0 + 1) _ (by simp; omega) (by omega)]
    rw [objStep_value]
    simp [concatAll, String.append_assoc]

/-- C1: for an inline object schema with a non-empty properties map, the
object resolver emits the member declarations in the declared order of the
properties list: the produced body text is exactly the opening brace
(contributed by the first property's step), the member declarations in
list order, and the closing brace (contributed by the last property's
step).  The fold is sequential by construction, so the order does not
depend on how any member's sub-resolution is scheduled. -/
theorem c1_ordered_member_emission (R : Resolvers) (item : SchemaObject)
    (name : Option String) (context : ContextSpecs)
    (props : List (String × SchemaObject))
    (h1 : isReference item = false) (h2 : item.allOf = none) (h3 : item.oneOf = none)
    (h4 : item.anyOf = none) (h5 : item.properties = some props) (h6 : props ≠ []) :
    (getObject R item name context).value =
      "\x7b" ++ concatAll (props.map (memberDecl R item name context)) ++ "\n\x7d" :=
  getObject_props_value R item name context props h1 h2 h3 h4 h5 h6

/-- Witness for C1 at a concrete two-property schema. -/
theorem c1_ordered_member_emission_witness :
    (getObject demoResolvers propsItem none demoContext).value =
      "\x7b" ++ concatAll ([("a", emptySchemaObject), ("b", emptySchemaObject)].map
        (memberDecl demoResolvers propsItem none demoContext)) ++ "\n\x7d" :=
  c1_ordered_member_emission demoResolvers propsItem none demoContext
    [("a", emptySchemaObject), ("b", emptySchemaObject)]
    rfl rfl rfl rfl rfl (List.cons_ne_nil _ _)

/-- C2: a node whose reference field is truthy resolves through the
reference alone — the result is the referenced name with a singleton
list of imports, no schemas, and the isRef flag, and any other node with the
same reference field resolves identically whatever its sibling keys,
name hint, or member resolvers would say. -/
theorem c2_reference_short_circuit (R : Resolvers) (item other : SchemaObject)
    (name nameB : Option String) (context : ContextSpecs)
    (h : isReference item = true) :
    getObject R item name context =
      { value := (R.getRefInfo (item.ref.getD ("")) context).1,
        imports := [{ name := (R.getRefInfo (item.ref.getD ("")) context).1,
                      specKey := (R.getRefInfo (item.ref.getD ("")) context).2 }],
        schemas := [], isEnum := false, type := "object", isRef := true }
    ∧ (other.ref = item.ref →
        getObject R other nameB context = getObject R item name context) := by
  constructor
  · rw [getObject]
    simp [h]
  · intro he
    have hother : isReference other = true := by
      have hsame : isReference other = isReference item := by
        unfold isReference
        rw [he]
      rw [hsame]
      exact h
    rw [getObject, getObject]
    simp [h, hother, he]

/-- Witness for C2 at a concrete reference node with stray siblings. -/
theorem c2_reference_short_circuit_witness :
    getObject demoResolvers refItem none demoContext =
      { value := "#/components/schemas/PetName",
        imports := [{ name := "#/components/schemas/PetName", specKey := "main" }],
        schemas := [], isEnum := false, type := "object", isRef := true }
    ∧ (refItemB.ref = refItem.ref →
        getObject demoResolvers refItemB (some ("X")) demoContext =
          getObject demoResolvers refItem none demoContext) :=
  c2_reference_short_circuit demoResolvers refItem refItemB none (some ("X")) demoContext rfl

/-- C3: a non-reference node carrying a composition keyword delegates to
the composition combiner with the separator matching the keyword, passing
the composition list, extended at the end with the node minus that one
keyword exactly when the node has its own properties. -/
theorem c3_composition_delegation (R : Resolvers) (item : SchemaObject)
    (name : Option String) (context : ContextSpecs)
    (h : isReference item = false) :
    (∀ l, item.allOf = some l →
      getObject R item name context =
        R.combineSchemas (if item.properties.isSome then l ++ [omitAllOf item] else l)
          name Separator.allOf context)
    ∧ (∀ l, item.allOf = none → item.oneOf = some l →
      getObject R item name context =
        R.combineSchemas (if item.properties.isSome then l ++ [omitOneOf item] else l)
          name Separator.oneOf context)
    ∧ (∀ l, item.allOf = none → item.oneOf = none → item.anyOf = some l →
      getObject R item name context =
        R.combineSchemas (if item.properties.isSome then l ++ [omitAnyOf item] else l)
          name Separator.anyOf context) := by
  refine ⟨fun l hl => ?_, fun l ha hl => ?_, fun l ha ho hl => ?_⟩
  · rw [getObject]; simp [h, hl]
  · rw [getObject]; simp [h, ha, hl]
  · rw [getObject]; simp [h, ha, ho, hl]

/-- Witness for C3 at a concrete allOf node with its own properties. -/
theorem c3_composition_delegation_witness :
    getObject demoResolvers c3Item none demoContext =
      demoResolvers.combineSchemas
        (if c3Item.properties.isSome then [emptySchemaObject] ++ [omitAllOf c3Item]
         else [emptySchemaObject])
        none Separator.allOf demoContext :=
  (c3_composition_delegation demoResolvers c3Item none demoContext rfl).1
    [emptySchemaObject] rfl

/-- C9: the object resolver is a pure function of its node, name hint and
context: two resolutions of the same inputs produce the same value text,
the same imports in the same order, and the same schemas in the same
order. -/
theorem c9_deterministic (R : Resolvers) (item : SchemaObject) (name : Option String)
    (context : ContextSpecs) (r1 r2 : ResolverValue)
    (hr1 : r1 = getObject R item name context)
    (hr2 : r2 = getObject R item name context) :
    r1.value = r2.value ∧ r1.imports = r2.imports ∧ r1.schemas = r2.schemas := by
  subst hr1
  subst hr2
  exact ⟨rfl, rfl, rfl⟩

/-- Witness for C9 at a concrete resolution. -/
theorem c9_deterministic_witness :
    (getObject demoResolvers propsItem none demoContext).value =
      (getObject demoResolvers propsItem none demoContext).value
    ∧ (getObject demoResolvers propsItem none demoContext).imports =
      (getObject demoResolvers propsItem none demoContext).imports
    ∧ (getObject demoResolvers propsItem none demoContext).schemas =
      (getObject demoResolvers propsItem none demoContext).schemas :=
  c9_deterministic demoResolvers propsItem none demoContext
    (getObject demoResolvers propsItem none demoContext)
    (getObject demoResolvers propsItem none demoContext) rfl rfl

/-- C10: dispatch precedence among composition keywords is allOf, then
oneOf, then anyOf: the highest-priority keyword present selects the
separator, and the residual item appended when the node has properties
omits only the selected keyword, retaining the lower-priority keywords
and the properties. -/
theorem c10_composition_precedence (R : Resolvers) (item : SchemaObject)
    (name : Option String) (context : ContextSpecs)
    (h : isReference item = false) :
    (∀ l, item.allOf = some l →
      (getObject R item name context =
        R.combineSchemas (if item.properties.isSome then l ++ [omitAllOf item] else l)
          name Separator.allOf context)
      ∧ (omitAllOf item).allOf = none ∧ (omitAllOf item).oneOf = item.oneOf
      ∧ (omitAllOf item).anyOf = item.anyOf
      ∧ (omitAllOf item).properties = item.properties)
    ∧ (∀ l, item.allOf = none → item.oneOf = some l →
      (getObject R item name context =
        R.combineSchemas (if item.properties.isSome then l ++ [omitOneOf item] else l)
          name Separator.oneOf context)
      ∧ (omitOneOf item).oneOf = none ∧ (omitOneOf item).anyOf = item.anyOf
      ∧ (omitOneOf item).properties = item.properties)
    ∧ (∀ l, item.allOf = none → item.oneOf = none → item.anyOf = some l →
      (getObject R item name context =
        R.combineSchemas (if item.properties.isSome then l ++ [omitAnyOf item] else l)
          name Separator.anyOf context)
      ∧ (omitAnyOf item).anyOf = none
      ∧ (omitAnyOf item).properties = item.properties) := by
  obtain ⟨r, al, ol, ay, pr, rq, ap, ro, ty⟩ := item
  refine ⟨fun l hl => ?_, fun l ha hl => ?_, fun l ha ho hl => ?_⟩
  · exact ⟨by rw [getObject]; simp [h, hl], rfl, rfl, rfl, rfl⟩
  · exact ⟨by rw [getObject]; simp [h, ha, hl], rfl, rfl, rfl⟩
  · exact ⟨by rw [getObject]; simp [h, ha, ho, hl], rfl, rfl⟩

/-- Witness for C10 at a concrete node carrying allOf, oneOf and
properties at once. -/
theorem c10_composition_precedence_witness :
    (getObject demoResolvers c10Item none demoContext =
      demoResolvers.combineSchemas
        (if c10Item.properties.isSome then [emptySchemaObject] ++ [omitAllOf c10Item]
         else [emptySchemaObject])
        none Separator.allOf demoContext)
    ∧ (omitAllOf c10Item).allOf = none
    ∧ (omitAllOf c10Item).oneOf = c10Item.oneOf
    ∧ (omitAllOf c10Item).anyOf = c10Item.anyOf
    ∧ (omitAllOf c10Item).properties = c10Item.properties :=
  (c10_composition_precedence demoResolvers c10Item none demoContext rfl).1
    [emptySchemaObject] rfl

/-- C4 (amended): with a parent name supplied, the member name hint is the
candidate `pascal(parent) + pascal(key)`, suffixed with the literal
Property exactly when the candidate is a top-level schema of the target
document; with no parent name supplied, no hint is produced provided the
target document has no top-level schema under the empty-string key (when
it does, the JS concatenation of the undefined candidate produces the
hint undefinedProperty, see the counterexample). -/
theorem c4_collision_disambiguation (pascal : String → String) (parent key : String)
    (context : ContextSpecs) :
    (nestedPropName pascal (some parent) key context =
      some (if (targetSchemaNames context).contains (pascal parent ++ pascal key)
            then pascal parent ++ pascal key ++ "Property"
            else pascal parent ++ pascal key))
    ∧ ((targetSchemaNames context).contains ("") = false →
      nestedPropName pascal none key context = none) := by
  constructor
  · have hcand : nestedPropName pascal (some parent) key context =
        (if (targetSchemaNames context).contains (pascal parent ++ pascal key) then
          some (pascal parent ++ pascal key ++ "Property")
        else some (pascal parent ++ pascal key)) := rfl
    rw [hcand]
    cases hc : (targetSchemaNames context).contains (pascal parent ++ pascal key) <;>
      simp [hc]
  · intro hc
    have hnone : nestedPropName pascal none key context =
        (if (targetSchemaNames context).contains ("") then some ("undefinedProperty")
        else none) := rfl
    rw [hnone, hc]
    simp

/-- Witness for C4 (amended): the spec's Pet / Status example, where the
target document already declares PetStatus, and the no-parent case in a
context without an empty-string schema name. -/
theorem c4_collision_disambiguation_witness :
    nestedPropName (fun s => s) (some ("Pet")) "Status" demoContext =
      some ("PetStatusProperty")
    ∧ nestedPropName (fun s => s) none "Status" demoContext = none := by
  have h := c4_collision_disambiguation (fun s => s) "Pet" "Status" demoContext
  exact ⟨h.1.trans (by rfl), h.2 (by rfl)⟩

/-- Counterexample to C4 as stated: with no parent name supplied but a
target document declaring a top-level schema under the empty-string key,
the lookup `propName || ''` hits that schema and the code passes the hint
undefinedProperty to the member resolver (the demo resolver echoes the
hint it receives into the member value, so the body text shows it). -/
theorem c4_no_parent_hint_counterexample :
    (getObject demoResolvers c4Item none c4Context).value =
      "\x7b\n  a?: hint:undefinedProperty;\n\x7d"
    ∧ (getObject demoResolvers c4Item none c4Context).value ≠
      "\x7b\n  a?: nohint;\n\x7d" := by
  exact ⟨rfl, by decide⟩

/-- C5 (amended): for a node with no reference, no composition and no
non-empty properties, a truthy `additionalProperties` yields the index
record: the boolean true yields the open record with empty imports and
schemas, a schema value yields the record valued by the resolved value
schema with its imports and schemas propagated; the boolean false is
falsy, so it falls through to the fallback as if absent. -/
theorem c5_additional_properties (R : Resolvers) (item : SchemaObject)
    (name : Option String) (context : ContextSpecs)
    (h1 : isReference item = false) (h2 : item.allOf = none) (h3 : item.oneOf = none)
    (h4 : item.anyOf = none)
    (h5 : item.properties = none ∨ item.properties = some []) :
    (item.additionalProperties = some (Sum.inl true) →
      getObject R item name context =
        { value := "\x7b [key: string]: any \x7d", imports := [], schemas := [],
          isEnum := false, type := "object", isRef := false })
    ∧ (∀ valueSchema, item.additionalProperties = some (Sum.inr valueSchema) →
      getObject R item name context =
        { value := "\x7b[key: string]: " ++ (R.resolveValue valueSchema name context).value ++ "\x7d",
          imports := (R.resolveValue valueSchema name context).imports,
          schemas := (R.resolveValue valueSchema name context).schemas,
          isEnum := false, type := "object", isRef := false })
    ∧ (item.additionalProperties = some (Sum.inl false) →
      getObject R item name context = fallbackValue item) := by
  have hres : getObject R item name context = getObjectTail R item name context := by
    rw [getObject]
    rcases h5 with h5 | h5 <;> simp [h1, h2, h3, h4, h5]
  refine ⟨fun hap => ?_, fun valueSchema hap => ?_, fun hap => ?_⟩ <;>
    rw [hres, getObjectTail] <;> simp [hap]

/-- Witness for C5 (amended) at a concrete schema-valued
additionalProperties node. -/
theorem c5_additional_properties_witness :
    getObject demoResolvers c5bItem none demoContext =
      { value := "\x7b[key: string]: resolved\x7d",
        imports := [{ name := "V", specKey := "main" }],
        schemas := [{ name := "VS", model := "vs" }],
        isEnum := false, type := "object", isRef := false } :=
  (c5_additional_properties demoResolvers c5bItem none demoContext
      rfl rfl rfl rfl (Or.inl rfl)).2.1 emptySchemaObject rfl

/-- Counterexample to C5 as stated: `additionalProperties: false` is a
boolean, but the truthiness guard sends it to the fallback, so the result
is the unknown placeholder rather than the open index record the claim
requires for every boolean. -/
theorem c5_boolean_false_counterexample :
    (getObject demoResolvers c5Item none demoContext).value = "unknown"
    ∧ (getObject demoResolvers c5Item none demoContext).value ≠
      "\x7b [key: string]: any \x7d" := by
  exact ⟨rfl, by decide⟩

/-- C6: a node with none of the recognized shapes (no reference, no
composition keyword, no non-empty properties, no additionalProperties)
does not fail: it resolves to the empty record when its declared type is
object and to the unknown placeholder otherwise, with no imports and no
schemas. -/
theorem c6_shape_fallback (R : Resolvers) (item : SchemaObject) (name : Option String)
    (context : ContextSpecs)
    (h1 : item.ref = none) (h2 : item.allOf = none) (h3 : item.oneOf = none)
    (h4 : item.anyOf = none)
    (h5 : item.properties = none ∨ item.properties = some [])
    (h6 : item.additionalProperties = none) :
    ((item.type = some ("object") → (getObject R item name context).value = "\x7b\x7d")
      ∧ (item.type ≠ some ("object") → (getObject R item name context).value = "unknown"))
    ∧ (getObject R item name context).imports = []
    ∧ (getObject R item name context).schemas = [] := by
  have href : isReference item = false := by
    simp [isReference, h1]
  have hres : getObject R item name context = fallbackValue item := by
    rw [getObject]
    rcases h5 with h5 | h5 <;> simp [href, h2, h3, h4, h5, getObjectTail, h6]
  rw [hres]
  refine ⟨⟨fun ht => ?_, fun ht => ?_⟩, rfl, rfl⟩
  · simp [fallbackValue, ht]
  · have hne : (item.type == some ("object")) = false := by
      simp [ht]
    simp [fallbackValue, hne]

/-- Witness for C6 at a concrete object-typed node with an empty
properties map. -/
theorem c6_shape_fallback_witness :
    ((c6Item.type = some ("object") →
        (getObject demoResolvers c6Item none demoContext).value = "\x7b\x7d")
      ∧ (c6Item.type ≠ some ("object") →
        (getObject demoResolvers c6Item none demoContext).value = "unknown"))
    ∧ (getObject demoResolvers c6Item none demoContext).imports = []
    ∧ (getObject demoResolvers c6Item none demoContext).schemas = [] :=
  c6_shape_fallback demoResolvers c6Item none demoContext
    rfl rfl rfl rfl (Or.inr rfl) rfl

/-- C7: a member is emitted without the optional marker exactly when its
key occurs in the node's required array; when the required field is
absent or not an array, every member is emitted optional. -/
theorem c7_required_optional_marker (R : Resolvers) (item : SchemaObject)
    (name : Option String) (context : ContextSpecs)
    (props : List (String × SchemaObject))
    (h1 : isReference item = false) (h2 : item.allOf = none) (h3 : item.oneOf = none)
    (h4 : item.anyOf = none) (h5 : item.properties = some props) (h6 : props ≠ []) :
    (∀ reqs, item.required = ReqField.arr reqs →
      (getObject R item name context).value =
        "\x7b" ++ concatAll (props.map
          (fun p => memberWithReq R item name context p (reqs.contains p.1))) ++ "\n\x7d")
    ∧ ((∀ reqs, item.required ≠ ReqField.arr reqs) →
      (getObject R item name context).value =
        "\x7b" ++ concatAll (props.map
          (fun p => memberWithReq R item name context p false)) ++ "\n\x7d") := by
  constructor
  · intro reqs hreq
    rw [getObject_props_value R item name context props h1 h2 h3 h4 h5 h6]
    have hmap : props.map (memberDecl R item name context) =
        props.map (fun p => memberWithReq R item name context p (reqs.contains p.1)) := by
      simp [memberDecl, memberWithReq, requiredOf, hreq]
    rw [hmap]
  · intro hmal
    rw [getObject_props_value R item name context props h1 h2 h3 h4 h5 h6]
    have hmap : props.map (memberDecl R item name context) =
        props.map (fun p => memberWithReq R item name context p false) := by
      cases hr : item.required with
      | arr names => exact absurd hr (hmal names)
      | missing => simp [memberDecl, memberWithReq, requiredOf, hr]
      | malformed => simp [memberDecl, memberWithReq, requiredOf, hr]
    rw [hmap]

/-- Witness for C7 at a concrete schema requiring its first property. -/
theorem c7_required_optional_marker_witness :
    (getObject demoResolvers propsItem none demoContext).value =
      "\x7b\n  a: nohint;\n  b?: nohint;\n\x7d" :=
  (c7_required_optional_marker demoResolvers propsItem none demoContext
      [("a", emptySchemaObject), ("b", emptySchemaObject)]
      rfl rfl rfl rfl rfl (List.cons_ne_nil _ _)).1 ["a"] rfl

/-- C8: a member is prefixed with the readonly marker exactly when the
owning object or the member schema itself declares readOnly truthy. -/
theorem c8_readonly_marker (R : Resolvers) (item : SchemaObject)
    (name : Option String) (context : ContextSpecs)
    (props : List (String × SchemaObject))
    (h1 : isReference item = false) (h2 : item.allOf = none) (h3 : item.oneOf = none)
    (h4 : item.anyOf = none) (h5 : item.properties = some props) (h6 : props ≠ []) :
    (getObject R item name context).value =
      "\x7b" ++ concatAll (props.map
        (fun p => memberWithRO R item name context p (item.readOnly || p.2.readOnly))) ++
        "\n\x7d" := by
  rw [getObject_props_value R item name context props h1 h2 h3 h4 h5 h6]
  have hmap : props.map (memberDecl R item name context) =
      props.map (fun p => memberWithRO R item name context p (item.readOnly || p.2.readOnly)) := by
    simp [memberDecl, memberWithRO]
  rw [hmap]

/-- Witness for C8 at a concrete schema whose owner declares readOnly. -/
theorem c8_readonly_marker_witness :
    (getObject demoResolvers roItem none demoContext).value =
      "\x7b\n  readonly a?: nohint;\n\x7d" :=
  c8_readonly_marker demoResolvers roItem none demoContext
    [("a", emptySchemaObject)] rfl rfl rfl rfl rfl (List.cons_ne_nil _ _)
